import Mathlib

set_option maxRecDepth 8000
set_option linter.unusedSectionVars false

/-
Verification of the dog-walk tracker's core: the geodesy helper `getDistance` and the
walk-detection state machine (`processPositionUpdate`, `startWalk`, `handleManualStart`)
from the application source. The state machine is embedded as a pure step function over an
explicit engine state; the distance function the engine calls is kept as a parameter of the
configuration so the machine can be analysed for any distance function and instantiated with
the haversine `getDistance` over the reals, or with a computable function over the rationals
for concrete runs.
-/

namespace DogWalk

/-- A geographic coordinate: the `{ lat, lng }` records the source stores in a walk's path. -/
structure Coord (α : Type) where
  lat : α
  lng : α
  deriving DecidableEq

/-- A geofence zone (`interface Zone`): the reserved home zone or a user-defined named zone. -/
structure Zone (α : Type) where
  id : String
  name : String
  latitude : α
  longitude : α
  radius : α
  color : String
  deriving DecidableEq

/-- A walk record (`interface Walk`): timestamps in milliseconds, `duration` in whole
seconds, `distance` in kilometres, the path in chronological order. -/
structure Walk (α : Type) where
  id : String
  startTime : Int
  endTime : Option Int
  duration : Int
  distance : α
  path : List (Coord α)
  zonesVisited : List String
  deriving DecidableEq

/-- The detection state held in `walkStatusRef`. -/
inductive WalkStatus : Type
  | at_home
  | leaving
  | walking
  | returning
  deriving DecidableEq

/-- The confirmation accumulator held in `confirmationRef`:
`{ points, startTime, startPosition }`. -/
structure Confirmation (α : Type) where
  points : Nat
  startTime : Int
  startPosition : Option (Coord α)
  deriving DecidableEq

/-- The engine state read and mutated by `processPositionUpdate`, `startWalk` and
`handleManualStart`: the detection status, the confirmation accumulator, the `isWalking`
flag, the in-progress walk (if any), the last seen position, and the completed-walk
history list. -/
structure EngineState (α : Type) where
  walkStatus : WalkStatus
  confirmation : Confirmation α
  isWalking : Bool
  currentWalk : Option (Walk α)
  currentPosition : Option (Coord α)
  walks : List (Walk α)
  deriving DecidableEq

/-- The events the spec models as outputs of ingestion: `walkStarted` corresponds to
`startWalk` creating the in-progress walk, `walkCompleted` to the finalized walk being
handed off to the history list via `saveData`. -/
inductive WalkEvent (α : Type) : Type
  | walkStarted (startTime : Int) (startPosition : Coord α)
  | walkCompleted (walk : Walk α)
  deriving DecidableEq

/-- The engine's configuration during one ingestion call: the distance function it calls
(`getDistance` in the source), the home geofence and the user-defined named zones. -/
structure Config (α : Type) where
  dist : α → α → α → α → α
  homeZone : Zone α
  customZones : List (Zone α)

/-- Constant `HOME_RADIUS_KM = 0.05` (50 meters). -/
def HOME_RADIUS_KM {α : Type} [LinearOrderedField α] : α := 0.05

/-- Constant `WALK_START_CONFIRMATION_COUNT = 3`. -/
def WALK_START_CONFIRMATION_COUNT : Nat := 3

/-- Constant `WALK_END_CONFIRMATION_COUNT = 2`. -/
def WALK_END_CONFIRMATION_COUNT : Nat := 2

variable {α : Type} [LinearOrderedField α]

/-- Insert a name keeping the first occurrence, as a JavaScript `Set.add` does. -/
def insertUniq (acc : List String) (n : String) : List String :=
  if n ∈ acc then acc else acc ++ [n]

/-- Model of `Array.from(new Set(old ++ adds))`: union of the two name lists with JavaScript `Set`
semantics — no duplicates, insertion order, first occurrence wins. -/
def setUnion (old adds : List String) : List String :=
  (old ++ adds).foldl insertUniq []

/-- Function `startWalk(startTime, startPosition)`: a no-op when `isWalking` is set, otherwise
creates the in-progress walk seeded with the single start point, sets `isWalking` and
forces the status to `walking`. -/
def startWalk (s : EngineState α) (startTime : Int) (startPosition : Coord α) :
    EngineState α :=
  if s.isWalking then s
  else
    { s with
        currentWalk := some
          { id := "walk_" ++ toString startTime
            startTime := startTime
            endTime := none
            duration := 0
            distance := 0
            path := [startPosition]
            zonesVisited := [] }
        isWalking := true
        walkStatus := WalkStatus.walking }

/-- Function `handleManualStart`: starts a walk at the current position and current time; when no
position is known yet the source only alerts, changing no engine state. -/
def handleManualStart (now : Int) (s : EngineState α) : EngineState α :=
  match s.currentPosition with
  | some p => startWalk s now p
  | none => s

/-- The `walking`-state update of the in-progress walk: distance grows by the leg from the
last path point to the sample, the sample is appended to the path, and every named zone
whose radius contains the sample is added to `zonesVisited` with set semantics. -/
def walkingUpdate (cfg : Config α) (lat lng : α) (w : Walk α) : Walk α :=
  let lastPoint := w.path.getLastD ⟨lat, lng⟩
  let newDistance := cfg.dist lastPoint.lat lastPoint.lng lat lng
  let visitedZones := setUnion w.zonesVisited
    ((cfg.customZones.filter fun z =>
        decide (cfg.dist lat lng z.latitude z.longitude ≤ z.radius)).map Zone.name)
  { w with
      distance := w.distance + newDistance
      path := w.path ++ [⟨lat, lng⟩]
      zonesVisited := visitedZones }

/-- Finalization on walk-end confirmation: `endTime` is pinned to the return-confirmation
sequence's first timestamp and `duration = Math.floor((endTime - startTime) / 1000)`. -/
def finalizeWalk (w : Walk α) (endTime : Int) : Walk α :=
  { w with endTime := some endTime, duration := Int.fdiv (endTime - w.startTime) 1000 }

/-- Function `processPositionUpdate`: one ingestion call. Mirrors the source's if/else-if chain on
`walkStatusRef.current`, with `now` standing for the `Date.now()` observed while processing
the sample. Returns the next engine state together with the event this call emits
(`walkStarted` when a walk is created, `walkCompleted` when one is finalized). In the
confirming `leaving` branch the source dereferences `startPosition!`; the `none` case is
unreachable because `leaving` is only ever entered with a recorded start position, and is
modelled as leaving the walk untouched. -/
def processPositionUpdate (cfg : Config α) (lat lng : α) (now : Int)
    (s₀ : EngineState α) : EngineState α × Option (WalkEvent α) :=
  let s : EngineState α := { s₀ with currentPosition := some ⟨lat, lng⟩ }
  let distanceFromHome := cfg.dist lat lng cfg.homeZone.latitude cfg.homeZone.longitude
  match s.walkStatus with
  | WalkStatus.at_home =>
    if distanceFromHome > HOME_RADIUS_KM then
      ({ s with
          walkStatus := WalkStatus.leaving
          confirmation :=
            { points := 1, startTime := now, startPosition := some ⟨lat, lng⟩ } }, none)
    else
      (s, none)
  | WalkStatus.leaving =>
    if distanceFromHome > HOME_RADIUS_KM then
      let conf : Confirmation α := { s.confirmation with points := s.confirmation.points + 1 }
      if conf.points ≥ WALK_START_CONFIRMATION_COUNT then
        match conf.startPosition with
        | some p =>
          (startWalk { s with confirmation := conf } conf.startTime p,
            if s.isWalking then none else some (WalkEvent.walkStarted conf.startTime p))
        | none => ({ s with confirmation := conf }, none)
      else
        ({ s with confirmation := conf }, none)
    else
      ({ s with walkStatus := WalkStatus.at_home }, none)
  | WalkStatus.walking =>
    match s.currentWalk with
    | some w =>
      let s₁ : EngineState α := { s with currentWalk := some (walkingUpdate cfg lat lng w) }
      if distanceFromHome ≤ HOME_RADIUS_KM then
        ({ s₁ with
            walkStatus := WalkStatus.returning
            confirmation := { points := 1, startTime := now, startPosition := none } }, none)
      else
        (s₁, none)
    | none => (s, none)
  | WalkStatus.returning =>
    if distanceFromHome ≤ HOME_RADIUS_KM then
      let conf : Confirmation α := { s.confirmation with points := s.confirmation.points + 1 }
      if conf.points ≥ WALK_END_CONFIRMATION_COUNT then
        match s.currentWalk with
        | some w =>
          let completedWalk := finalizeWalk w conf.startTime
          ({ s with
              walks := s.walks ++ [completedWalk]
              currentWalk := none
              isWalking := false
              walkStatus := WalkStatus.at_home
              confirmation := conf }, some (WalkEvent.walkCompleted completedWalk))
        | none => ({ s with confirmation := conf }, none)
      else
        ({ s with confirmation := conf }, none)
    else
      ({ s with walkStatus := WalkStatus.walking }, none)

/-- One external stimulus to the engine: a position sample delivered to
`processPositionUpdate`, or a tap of the manual start button. -/
inductive Input (α : Type) : Type
  | sample (lat lng : α) (now : Int)
  | manualStart (now : Int)
  deriving DecidableEq

/-- One engine step for one input. -/
def step (cfg : Config α) (s : EngineState α) : Input α → EngineState α
  | Input.sample lat lng now => (processPositionUpdate cfg lat lng now s).1
  | Input.manualStart now => handleManualStart now s

/-- The engine's initial state: `at_home`, counters zeroed, no walk, no history. -/
def initialState {α : Type} : EngineState α :=
  { walkStatus := WalkStatus.at_home
    confirmation := { points := 0, startTime := 0, startPosition := none }
    isWalking := false
    currentWalk := none
    currentPosition := none
    walks := [] }

/-- Run the engine from its initial state over a list of inputs. -/
def runEngine (cfg : Config α) (inputs : List (Input α)) : EngineState α :=
  inputs.foldl (step cfg) initialState

/-- A position sample: latitude, longitude and its processing time in milliseconds. -/
structure Sample (α : Type) where
  lat : α
  lng : α
  now : Int
  deriving DecidableEq

/-- Ingest a list of position samples in order, starting from a given state. -/
def ingestAll (cfg : Config α) (L : List (Sample α)) (s : EngineState α) : EngineState α :=
  L.foldl (fun s p => (processPositionUpdate cfg p.lat p.lng p.now s).1) s

/-- Instrumented step for the path-provenance analysis: alongside the engine state it
carries the list of points the in-progress walk's path should consist of — reset to the
recorded candidate start position when a walk is created, and extended by exactly those
samples that are processed in the `walking` state with a walk present. -/
def stepColl (cfg : Config α) (p : EngineState α × List (Coord α)) (i : Input α) :
    EngineState α × List (Coord α) :=
  let s := p.1
  let s' := step cfg s i
  let coll :=
    if s.currentWalk.isNone = true ∧ s'.currentWalk.isSome = true then
      match i with
      | Input.sample _ _ _ => s.confirmation.startPosition.toList
      | Input.manualStart _ => s.currentPosition.toList
    else
      match i with
      | Input.sample lat lng _ =>
        if s.walkStatus = WalkStatus.walking ∧ s.currentWalk.isSome = true then
          p.2 ++ [⟨lat, lng⟩]
        else p.2
      | Input.manualStart _ => p.2
  (s', coll)

/-- Run the instrumented engine from the initial state. -/
def runColl (cfg : Config α) (inputs : List (Input α)) :
    EngineState α × List (Coord α) :=
  inputs.foldl (stepColl cfg) (initialState, [])

/-- Sum of the pairwise distances between consecutive points of a path. -/
def pathDistance (d : α → α → α → α → α) : List (Coord α) → α
  | [] => 0
  | [_] => 0
  | p :: q :: rest => d p.lat p.lng q.lat q.lng + pathDistance d (q :: rest)

/-- JavaScript's `Math.atan2(y, x)`. -/
noncomputable def atan2 (y x : Real) : Real :=
  if 0 < x then Real.arctan (y / x)
  else if x < 0 then
    (if 0 ≤ y then Real.arctan (y / x) + Real.pi else Real.arctan (y / x) - Real.pi)
  else if 0 < y then Real.pi / 2
  else if y < 0 then -(Real.pi / 2)
  else 0

/-- Function `getDistance(lat1, lon1, lat2, lon2)`: great-circle distance in kilometres by the
haversine formula with Earth radius 6371 km, modelled over the reals. -/
noncomputable def getDistance (lat1 lon1 lat2 lon2 : Real) : Real :=
  let R : Real := 6371
  let dLat := (lat2 - lat1) * (Real.pi / 180)
  let dLon := (lon2 - lon1) * (Real.pi / 180)
  let a :=
    Real.sin (dLat / 2) * Real.sin (dLat / 2) +
      Real.cos (lat1 * (Real.pi / 180)) * Real.cos (lat2 * (Real.pi / 180)) *
        (Real.sin (dLon / 2) * Real.sin (dLon / 2))
  let c := 2 * atan2 (Real.sqrt a) (Real.sqrt (1 - a))
  R * c

/-- A simple computable distance function on the rationals, used to exercise the state
machine on concrete inputs. -/
def manhattanDist (lat1 lon1 lat2 lon2 : Rat) : Rat :=
  |lat1 - lat2| + |lon1 - lon2|

/-- Concrete home zone at the origin with the 0.05 km home radius. -/
def homeZoneQ : Zone Rat :=
  { id := "home", name := "Home", latitude := 0, longitude := 0,
    radius := HOME_RADIUS_KM, color := "#A8A5A3" }

/-- A concrete named zone centred at latitude 1, longitude 1 with radius 1 km. -/
def parkZoneQ : Zone Rat :=
  { id := "zone_1", name := "Park", latitude := 1, longitude := 1, radius := 1,
    color := "#F87171" }

/-- Concrete engine configuration over the rationals. -/
def cfgQ : Config Rat :=
  { dist := manhattanDist, homeZone := homeZoneQ, customZones := [parkZoneQ] }

/-- A concrete input run: three consecutive samples 1 km from home, confirming a walk
start. -/
def startRunQ : List (Input Rat) :=
  [Input.sample 1 0 1000, Input.sample 1 0 2000, Input.sample 1 0 3000]

/-- The start run followed by one further away-from-home sample. -/
def walkRunQ : List (Input Rat) :=
  startRunQ ++ [Input.sample 2 0 4000]

/-- The three start samples as `Sample` records. -/
def startSamplesQ : List (Sample Rat) :=
  [⟨1, 0, 1000⟩, ⟨1, 0, 2000⟩, ⟨1, 0, 3000⟩]

/-- The concrete engine state reached after the three start samples. -/
def sWalkQ : EngineState Rat := ingestAll cfgQ startSamplesQ initialState

/-- The in-progress walk held in `sWalkQ`. -/
def wQ : Walk Rat := ⟨"walk_1000", 1000, none, 0, 0, [⟨1, 0⟩], []⟩

/-- The in-progress walk after the run `walkRunQ`. -/
def w10Q : Walk Rat := ⟨"walk_1000", 1000, none, 0, 1, [⟨1, 0⟩, ⟨2, 0⟩], []⟩

/-- The concrete state reached after the start samples plus one sample back at home:
`returning` with the walk still in progress. -/
def sRetQ : EngineState Rat := ingestAll cfgQ (startSamplesQ ++ [⟨0, 0, 4000⟩]) initialState

/-- The in-progress walk held in `sRetQ`. -/
def wRetQ : Walk Rat := ⟨"walk_1000", 1000, none, 0, 1, [⟨1, 0⟩, ⟨0, 0⟩], []⟩

/-- Membership in a JavaScript-set insertion. -/
theorem mem_insertUniq {x n : String} {acc : List String} :
    x ∈ insertUniq acc n ↔ x ∈ acc ∨ x = n := by
  unfold insertUniq
  by_cases h : n ∈ acc
  · rw [if_pos h]
    constructor
    · exact Or.inl
    · rintro (hx | rfl)
      · exact hx
      · exact h
  · rw [if_neg h]
    simp

/-- A JavaScript-set insertion preserves freedom from duplicates. -/
theorem nodup_insertUniq {acc : List String} (h : acc.Nodup) (n : String) :
    (insertUniq acc n).Nodup := by
  unfold insertUniq
  by_cases hn : n ∈ acc
  · rwa [if_pos hn]
  · rw [if_neg hn]
    simp [List.nodup_append, h, hn]

theorem mem_foldl_insertUniq (x : String) :
    ∀ (l acc : List String), x ∈ l.foldl insertUniq acc ↔ x ∈ acc ∨ x ∈ l
  | [], acc => by simp
  | n :: l, acc => by
    rw [List.foldl_cons, mem_foldl_insertUniq x l, mem_insertUniq]
    simp [List.mem_cons, or_assoc, eq_comm]

theorem nodup_foldl_insertUniq :
    ∀ (l acc : List String), acc.Nodup → (l.foldl insertUniq acc).Nodup
  | [], _, h => h
  | n :: l, acc, h => by
    rw [List.foldl_cons]
    exact nodup_foldl_insertUniq l _ (nodup_insertUniq h n)

/-- Membership in `setUnion` is the union of memberships. -/
theorem mem_setUnion {x : String} {old adds : List String} :
    x ∈ setUnion old adds ↔ x ∈ old ∨ x ∈ adds := by
  unfold setUnion
  rw [mem_foldl_insertUniq]
  simp

/-- Lists built by `setUnion` never hold duplicates. -/
theorem nodup_setUnion (old adds : List String) : (setUnion old adds).Nodup :=
  nodup_foldl_insertUniq _ _ List.nodup_nil

@[simp] theorem pathDistance_nil (d : α → α → α → α → α) : pathDistance d [] = 0 := rfl

@[simp] theorem pathDistance_single (d : α → α → α → α → α) (p : Coord α) :
    pathDistance d [p] = 0 := rfl

theorem pathDistance_cons_cons (d : α → α → α → α → α) (p q : Coord α)
    (rest : List (Coord α)) :
    pathDistance d (p :: q :: rest) = d p.lat p.lng q.lat q.lng + pathDistance d (q :: rest) :=
  rfl

/-- Appending a point to a nonempty path adds exactly the final leg to its distance. -/
theorem pathDistance_append (d : α → α → α → α → α) :
    ∀ (l : List (Coord α)), l ≠ [] → ∀ (x : Coord α),
      pathDistance d (l ++ [x]) =
        pathDistance d l + d (l.getLastD x).lat (l.getLastD x).lng x.lat x.lng
  | [], h, _ => absurd rfl h
  | [a], _, x => by
    simp [pathDistance_cons_cons]
  | a :: b :: l, _, x => by
    have ih := pathDistance_append d (b :: l) (List.cons_ne_nil b l) x
    have hlast : (a :: b :: l).getLastD x = (b :: l).getLastD x := by
      simp [List.getLastD_eq_getLast?, List.getLast?]
    calc pathDistance d ((a :: b :: l) ++ [x])
        = d a.lat a.lng b.lat b.lng + pathDistance d ((b :: l) ++ [x]) := rfl
      _ = d a.lat a.lng b.lat b.lng +
            (pathDistance d (b :: l) +
              d ((b :: l).getLastD x).lat ((b :: l).getLastD x).lng x.lat x.lng) := by
          rw [ih]
      _ = pathDistance d (a :: b :: l) +
            d ((a :: b :: l).getLastD x).lat ((a :: b :: l).getLastD x).lng x.lat x.lng := by
          rw [pathDistance_cons_cons, hlast, add_assoc]

/- Branch equations for `processPositionUpdate`, one per arm of the source's
if/else-if chain, stated on a fully destructured engine state. -/

theorem ppu_at_home_beyond (cfg : Config α) (lat lng : α) (now : Int)
    (conf : Confirmation α) (iw : Bool) (cw : Option (Walk α)) (cp : Option (Coord α))
    (ws : List (Walk α))
    (hd : cfg.dist lat lng cfg.homeZone.latitude cfg.homeZone.longitude > HOME_RADIUS_KM) :
    processPositionUpdate cfg lat lng now ⟨WalkStatus.at_home, conf, iw, cw, cp, ws⟩ =
      (⟨WalkStatus.leaving, ⟨1, now, some ⟨lat, lng⟩⟩, iw, cw, some ⟨lat, lng⟩, ws⟩, none) := by
  simp [processPositionUpdate, hd]

theorem ppu_at_home_within (cfg : Config α) (lat lng : α) (now : Int)
    (conf : Confirmation α) (iw : Bool) (cw : Option (Walk α)) (cp : Option (Coord α))
    (ws : List (Walk α))
    (hd : ¬ cfg.dist lat lng cfg.homeZone.latitude cfg.homeZone.longitude > HOME_RADIUS_KM) :
    processPositionUpdate cfg lat lng now ⟨WalkStatus.at_home, conf, iw, cw, cp, ws⟩ =
      (⟨WalkStatus.at_home, conf, iw, cw, some ⟨lat, lng⟩, ws⟩, none) := by
  simp [processPositionUpdate, hd]

theorem ppu_leaving_beyond_noconfirm (cfg : Config α) (lat lng : α) (now : Int)
    (conf : Confirmation α) (iw : Bool) (cw : Option (Walk α)) (cp : Option (Coord α))
    (ws : List (Walk α))
    (hd : cfg.dist lat lng cfg.homeZone.latitude cfg.homeZone.longitude > HOME_RADIUS_KM)
    (hc : ¬ conf.points + 1 ≥ WALK_START_CONFIRMATION_COUNT) :
    processPositionUpdate cfg lat lng now ⟨WalkStatus.leaving, conf, iw, cw, cp, ws⟩ =
      (⟨WalkStatus.leaving, ⟨conf.points + 1, conf.startTime, conf.startPosition⟩, iw, cw,
        some ⟨lat, lng⟩, ws⟩, none) := by
  simp [processPositionUpdate, hd, hc]

theorem ppu_leaving_confirm_start (cfg : Config α) (lat lng : α) (now : Int)
    (conf : Confirmation α) (cw : Option (Walk α)) (cp : Option (Coord α))
    (ws : List (Walk α)) (p : Coord α)
    (hd : cfg.dist lat lng cfg.homeZone.latitude cfg.homeZone.longitude > HOME_RADIUS_KM)
    (hc : conf.points + 1 ≥ WALK_START_CONFIRMATION_COUNT)
    (hp : conf.startPosition = some p) :
    processPositionUpdate cfg lat lng now ⟨WalkStatus.leaving, conf, false, cw, cp, ws⟩ =
      (⟨WalkStatus.walking, ⟨conf.points + 1, conf.startTime, some p⟩, true,
        some ⟨"walk_" ++ toString conf.startTime, conf.startTime, none, 0, 0, [p], []⟩,
        some ⟨lat, lng⟩, ws⟩,
        some (WalkEvent.walkStarted conf.startTime p)) := by
  simp [processPositionUpdate, startWalk, hd, hc, hp]

theorem ppu_leaving_confirm_isWalking (cfg : Config α) (lat lng : α) (now : Int)
    (conf : Confirmation α) (cw : Option (Walk α)) (cp : Option (Coord α))
    (ws : List (Walk α)) (p : Coord α)
    (hd : cfg.dist lat lng cfg.homeZone.latitude cfg.homeZone.longitude > HOME_RADIUS_KM)
    (hc : conf.points + 1 ≥ WALK_START_CONFIRMATION_COUNT)
    (hp : conf.startPosition = some p) :
    processPositionUpdate cfg lat lng now ⟨WalkStatus.leaving, conf, true, cw, cp, ws⟩ =
      (⟨WalkStatus.leaving, ⟨conf.points + 1, conf.startTime, some p⟩, true, cw,
        some ⟨lat, lng⟩, ws⟩, none) := by
  simp [processPositionUpdate, startWalk, hd, hc, hp]

theorem ppu_leaving_confirm_nopos (cfg : Config α) (lat lng : α) (now : Int)
    (conf : Confirmation α) (iw : Bool) (cw : Option (Walk α)) (cp : Option (Coord α))
    (ws : List (Walk α))
    (hd : cfg.dist lat lng cfg.homeZone.latitude cfg.homeZone.longitude > HOME_RADIUS_KM)
    (hc : conf.points + 1 ≥ WALK_START_CONFIRMATION_COUNT)
    (hp : conf.startPosition = none) :
    processPositionUpdate cfg lat lng now ⟨WalkStatus.leaving, conf, iw, cw, cp, ws⟩ =
      (⟨WalkStatus.leaving, ⟨conf.points + 1, conf.startTime, none⟩, iw, cw,
        some ⟨lat, lng⟩, ws⟩, none) := by
  simp [processPositionUpdate, hd, hc, hp]

theorem ppu_leaving_within (cfg : Config α) (lat lng : α) (now : Int)
    (conf : Confirmation α) (iw : Bool) (cw : Option (Walk α)) (cp : Option (Coord α))
    (ws : List (Walk α))
    (hd : ¬ cfg.dist lat lng cfg.homeZone.latitude cfg.homeZone.longitude > HOME_RADIUS_KM) :
    processPositionUpdate cfg lat lng now ⟨WalkStatus.leaving, conf, iw, cw, cp, ws⟩ =
      (⟨WalkStatus.at_home, conf, iw, cw, some ⟨lat, lng⟩, ws⟩, none) := by
  simp [processPositionUpdate, hd]

theorem ppu_walking_beyond (cfg : Config α) (lat lng : α) (now : Int)
    (conf : Confirmation α) (iw : Bool) (w : Walk α) (cp : Option (Coord α))
    (ws : List (Walk α))
    (hd : ¬ cfg.dist lat lng cfg.homeZone.latitude cfg.homeZone.longitude ≤ HOME_RADIUS_KM) :
    processPositionUpdate cfg lat lng now ⟨WalkStatus.walking, conf, iw, some w, cp, ws⟩ =
      (⟨WalkStatus.walking, conf, iw, some (walkingUpdate cfg lat lng w),
        some ⟨lat, lng⟩, ws⟩, none) := by
  simp [processPositionUpdate, hd]

theorem ppu_walking_within (cfg : Config α) (lat lng : α) (now : Int)
    (conf : Confirmation α) (iw : Bool) (w : Walk α) (cp : Option (Coord α))
    (ws : List (Walk α))
    (hd : cfg.dist lat lng cfg.homeZone.latitude cfg.homeZone.longitude ≤ HOME_RADIUS_KM) :
    processPositionUpdate cfg lat lng now ⟨WalkStatus.walking, conf, iw, some w, cp, ws⟩ =
      (⟨WalkStatus.returning, ⟨1, now, none⟩, iw, some (walkingUpdate cfg lat lng w),
        some ⟨lat, lng⟩, ws⟩, none) := by
  simp [processPositionUpdate, hd]

theorem ppu_walking_nowalk (cfg : Config α) (lat lng : α) (now : Int)
    (conf : Confirmation α) (iw : Bool) (cp : Option (Coord α)) (ws : List (Walk α)) :
    processPositionUpdate cfg lat lng now ⟨WalkStatus.walking, conf, iw, none, cp, ws⟩ =
      (⟨WalkStatus.walking, conf, iw, none, some ⟨lat, lng⟩, ws⟩, none) := by
  simp [processPositionUpdate]

theorem ppu_returning_confirm (cfg : Config α) (lat lng : α) (now : Int)
    (conf : Confirmation α) (iw : Bool) (w : Walk α) (cp : Option (Coord α))
    (ws : List (Walk α))
    (hd : cfg.dist lat lng cfg.homeZone.latitude cfg.homeZone.longitude ≤ HOME_RADIUS_KM)
    (hc : conf.points + 1 ≥ WALK_END_CONFIRMATION_COUNT) :
    processPositionUpdate cfg lat lng now ⟨WalkStatus.returning, conf, iw, some w, cp, ws⟩ =
      (⟨WalkStatus.at_home, ⟨conf.points + 1, conf.startTime, conf.startPosition⟩, false,
        none, some ⟨lat, lng⟩, ws ++ [finalizeWalk w conf.startTime]⟩,
        some (WalkEvent.walkCompleted (finalizeWalk w conf.startTime))) := by
  simp [processPositionUpdate, hd, hc]

theorem ppu_returning_noconfirm (cfg : Config α) (lat lng : α) (now : Int)
    (conf : Confirmation α) (iw : Bool) (cw : Option (Walk α)) (cp : Option (Coord α))
    (ws : List (Walk α))
    (hd : cfg.dist lat lng cfg.homeZone.latitude cfg.homeZone.longitude ≤ HOME_RADIUS_KM)
    (hc : ¬ conf.points + 1 ≥ WALK_END_CONFIRMATION_COUNT) :
    processPositionUpdate cfg lat lng now ⟨WalkStatus.returning, conf, iw, cw, cp, ws⟩ =
      (⟨WalkStatus.returning, ⟨conf.points + 1, conf.startTime, conf.startPosition⟩, iw, cw,
        some ⟨lat, lng⟩, ws⟩, none) := by
  simp [processPositionUpdate, hd, hc]

theorem ppu_returning_confirm_nowalk (cfg : Config α) (lat lng : α) (now : Int)
    (conf : Confirmation α) (iw : Bool) (cp : Option (Coord α)) (ws : List (Walk α))
    (hd : cfg.dist lat lng cfg.homeZone.latitude cfg.homeZone.longitude ≤ HOME_RADIUS_KM)
    (hc : conf.points + 1 ≥ WALK_END_CONFIRMATION_COUNT) :
    processPositionUpdate cfg lat lng now ⟨WalkStatus.returning, conf, iw, none, cp, ws⟩ =
      (⟨WalkStatus.returning, ⟨conf.points + 1, conf.startTime, conf.startPosition⟩, iw, none,
        some ⟨lat, lng⟩, ws⟩, none) := by
  simp [processPositionUpdate, hd, hc]

theorem ppu_returning_beyond (cfg : Config α) (lat lng : α) (now : Int)
    (conf : Confirmation α) (iw : Bool) (cw : Option (Walk α)) (cp : Option (Coord α))
    (ws : List (Walk α))
    (hd : ¬ cfg.dist lat lng cfg.homeZone.latitude cfg.homeZone.longitude ≤ HOME_RADIUS_KM) :
    processPositionUpdate cfg lat lng now ⟨WalkStatus.returning, conf, iw, cw, cp, ws⟩ =
      (⟨WalkStatus.walking, conf, iw, cw, some ⟨lat, lng⟩, ws⟩, none) := by
  simp [processPositionUpdate, hd]

@[simp] theorem walkingUpdate_path (cfg : Config α) (lat lng : α) (w : Walk α) :
    (walkingUpdate cfg lat lng w).path = w.path ++ [⟨lat, lng⟩] := rfl

@[simp] theorem walkingUpdate_distance (cfg : Config α) (lat lng : α) (w : Walk α) :
    (walkingUpdate cfg lat lng w).distance =
      w.distance + cfg.dist (w.path.getLastD ⟨lat, lng⟩).lat
        (w.path.getLastD ⟨lat, lng⟩).lng lat lng := rfl

@[simp] theorem walkingUpdate_zonesVisited (cfg : Config α) (lat lng : α) (w : Walk α) :
    (walkingUpdate cfg lat lng w).zonesVisited =
      setUnion w.zonesVisited
        ((cfg.customZones.filter fun z =>
            decide (cfg.dist lat lng z.latitude z.longitude ≤ z.radius)).map Zone.name) := rfl

@[simp] theorem walkingUpdate_startTime (cfg : Config α) (lat lng : α) (w : Walk α) :
    (walkingUpdate cfg lat lng w).startTime = w.startTime := rfl

@[simp] theorem finalizeWalk_path (w : Walk α) (t : Int) : (finalizeWalk w t).path = w.path :=
  rfl

@[simp] theorem finalizeWalk_distance (w : Walk α) (t : Int) :
    (finalizeWalk w t).distance = w.distance := rfl

@[simp] theorem finalizeWalk_zonesVisited (w : Walk α) (t : Int) :
    (finalizeWalk w t).zonesVisited = w.zonesVisited := rfl

@[simp] theorem finalizeWalk_startTime (w : Walk α) (t : Int) :
    (finalizeWalk w t).startTime = w.startTime := rfl

@[simp] theorem finalizeWalk_endTime (w : Walk α) (t : Int) :
    (finalizeWalk w t).endTime = some t := rfl

@[simp] theorem finalizeWalk_duration (w : Walk α) (t : Int) :
    (finalizeWalk w t).duration = Int.fdiv (t - w.startTime) 1000 := rfl

/-- The walk-level invariant maintained for every in-progress walk: a nonempty path, a
distance that is exactly the sum of the path's legs, and a duplicate-free visited-zone
list. -/
def WalkInv (cfg : Config α) (w : Walk α) : Prop :=
  w.path ≠ [] ∧ w.distance = pathDistance cfg.dist w.path ∧ w.zonesVisited.Nodup

/-- The engine invariant: the detection status agrees with the existence of the
in-progress walk, the `isWalking` flag tracks that existence, and both the in-progress
walk and every completed walk satisfy the walk-level conditions. -/
def Inv (cfg : Config α) (s : EngineState α) : Prop :=
  ((s.walkStatus = WalkStatus.walking ∨ s.walkStatus = WalkStatus.returning) ↔
    s.currentWalk.isSome = true) ∧
  s.isWalking = s.currentWalk.isSome ∧
  (∀ w, s.currentWalk = some w → WalkInv cfg w) ∧
  ∀ w ∈ s.walks, w.distance = pathDistance cfg.dist w.path ∧ w.zonesVisited.Nodup

theorem walkInv_walkingUpdate (cfg : Config α) (lat lng : α) (w : Walk α)
    (h : WalkInv cfg w) : WalkInv cfg (walkingUpdate cfg lat lng w) := by
  obtain ⟨hne, hdist, _⟩ := h
  refine ⟨by simp, ?_, by simp [nodup_setUnion]⟩
  rw [walkingUpdate_distance, walkingUpdate_path,
    pathDistance_append cfg.dist w.path hne ⟨lat, lng⟩, hdist]

theorem inv_processPositionUpdate (cfg : Config α) (lat lng : α) (now : Int)
    (s : EngineState α) (h : Inv cfg s) :
    Inv cfg (processPositionUpdate cfg lat lng now s).1 := by
  obtain ⟨st, conf, iw, cw, cp, ws⟩ := s
  obtain ⟨hagree, hflag, hwalk, hhist⟩ := h
  cases st with
  | at_home =>
    cases cw with
    | some w => simp at hagree
    | none =>
      simp at hflag
      subst hflag
      by_cases hd : cfg.dist lat lng cfg.homeZone.latitude cfg.homeZone.longitude >
          HOME_RADIUS_KM
      · rw [ppu_at_home_beyond cfg lat lng now conf false none cp ws hd]
        exact ⟨by simp, by simp, by simp, hhist⟩
      · rw [ppu_at_home_within cfg lat lng now conf false none cp ws hd]
        exact ⟨by simp, by simp, by simp, hhist⟩
  | leaving =>
    cases cw with
    | some w => simp at hagree
    | none =>
      simp at hflag
      subst hflag
      by_cases hd : cfg.dist lat lng cfg.homeZone.latitude cfg.homeZone.longitude >
          HOME_RADIUS_KM
      · by_cases hc : conf.points + 1 ≥ WALK_START_CONFIRMATION_COUNT
        · cases hp : conf.startPosition with
          | some p =>
            rw [ppu_leaving_confirm_start cfg lat lng now conf none cp ws p hd hc hp]
            refine ⟨by simp, by simp, ?_, hhist⟩
            intro w' hw'
            obtain rfl := Option.some.inj hw'
            exact ⟨by simp, by simp, by simp⟩
          | none =>
            rw [ppu_leaving_confirm_nopos cfg lat lng now conf false none cp ws hd hc hp]
            exact ⟨by simp, by simp, by simp, hhist⟩
        · rw [ppu_leaving_beyond_noconfirm cfg lat lng now conf false none cp ws hd hc]
          exact ⟨by simp, by simp, by simp, hhist⟩
      · rw [ppu_leaving_within cfg lat lng now conf false none cp ws hd]
        exact ⟨by simp, by simp, by simp, hhist⟩
  | walking =>
    cases cw with
    | none => simp at hagree
    | some w =>
      simp at hflag
      subst hflag
      have hwi : WalkInv cfg w := hwalk w rfl
      by_cases hd : cfg.dist lat lng cfg.homeZone.latitude cfg.homeZone.longitude ≤
          HOME_RADIUS_KM
      · rw [ppu_walking_within cfg lat lng now conf true w cp ws hd]
        refine ⟨by simp, by simp, ?_, hhist⟩
        intro w' hw'
        obtain rfl := Option.some.inj hw'
        exact walkInv_walkingUpdate cfg lat lng w hwi
      · rw [ppu_walking_beyond cfg lat lng now conf true w cp ws hd]
        refine ⟨by simp, by simp, ?_, hhist⟩
        intro w' hw'
        obtain rfl := Option.some.inj hw'
        exact walkInv_walkingUpdate cfg lat lng w hwi
  | returning =>
    cases cw with
    | none => simp at hagree
    | some w =>
      simp at hflag
      subst hflag
      have hwi : WalkInv cfg w := hwalk w rfl
      by_cases hd : cfg.dist lat lng cfg.homeZone.latitude cfg.homeZone.longitude ≤
          HOME_RADIUS_KM
      · by_cases hc : conf.points + 1 ≥ WALK_END_CONFIRMATION_COUNT
        · rw [ppu_returning_confirm cfg lat lng now conf true w cp ws hd hc]
          refine ⟨by simp, by simp, by simp, ?_⟩
          intro w' hw'
          rw [List.mem_append] at hw'
          rcases hw' with hw' | hw'
          · exact hhist w' hw'
          · rw [List.mem_singleton] at hw'
            subst hw'
            exact ⟨by simpa using hwi.2.1, by simpa using hwi.2.2⟩
        · rw [ppu_returning_noconfirm cfg lat lng now conf true (some w) cp ws hd hc]
          refine ⟨by simp, by simp, ?_, hhist⟩
          intro w' hw'
          obtain rfl := Option.some.inj hw'
          exact hwi
      · rw [ppu_returning_beyond cfg lat lng now conf true (some w) cp ws hd]
        refine ⟨by simp, by simp, ?_, hhist⟩
        intro w' hw'
        obtain rfl := Option.some.inj hw'
        exact hwi

theorem inv_handleManualStart (cfg : Config α) (now : Int) (s : EngineState α)
    (h : Inv cfg s) : Inv cfg (handleManualStart now s) := by
  obtain ⟨st, conf, iw, cw, cp, ws⟩ := s
  obtain ⟨hagree, hflag, hwalk, hhist⟩ := h
  unfold handleManualStart
  cases cp with
  | none => exact ⟨hagree, hflag, hwalk, hhist⟩
  | some p =>
    show Inv cfg (startWalk ⟨st, conf, iw, cw, some p, ws⟩ now p)
    unfold startWalk
    cases iw with
    | true => exact ⟨hagree, hflag, hwalk, hhist⟩
    | false =>
      cases cw with
      | some w => simp at hflag
      | none =>
        simp only [Bool.false_eq_true, if_false]
        refine ⟨by simp, by simp, ?_, hhist⟩
        intro w' hw'
        obtain rfl := Option.some.inj hw'
        exact ⟨by simp, by simp, by simp⟩

theorem inv_step (cfg : Config α) (s : EngineState α) (i : Input α) (h : Inv cfg s) :
    Inv cfg (step cfg s i) := by
  cases i with
  | sample lat lng now => exact inv_processPositionUpdate cfg lat lng now s h
  | manualStart now => exact inv_handleManualStart cfg now s h

theorem inv_initialState (cfg : Config α) : Inv cfg (initialState : EngineState α) := by
  refine ⟨by simp [initialState], by simp [initialState], ?_, ?_⟩
  · intro w hw
    simp [initialState] at hw
  · intro w hw
    simp [initialState] at hw

theorem inv_foldl (cfg : Config α) (L : List (Input α)) :
    ∀ (s : EngineState α), Inv cfg s → Inv cfg (L.foldl (step cfg) s) := by
  induction L with
  | nil => exact fun _ h => h
  | cons i L ih => exact fun s h => ih _ (inv_step cfg s i h)

theorem inv_runEngine (cfg : Config α) (L : List (Input α)) : Inv cfg (runEngine cfg L) :=
  inv_foldl cfg L initialState (inv_initialState cfg)

@[simp] theorem ingestAll_nil (cfg : Config α) (s : EngineState α) :
    ingestAll cfg [] s = s := rfl

@[simp] theorem ingestAll_cons (cfg : Config α) (p : Sample α) (L : List (Sample α))
    (s : EngineState α) :
    ingestAll cfg (p :: L) s =
      ingestAll cfg L (processPositionUpdate cfg p.lat p.lng p.now s).1 := rfl

/-- C1: for every sequence of ingested samples (including manual walk starts), after each
call the detection state and the existence of an in-progress walk agree — the state is
`walking` or `returning` exactly when an in-progress walk exists, and `at_home` or
`leaving` exactly when none exists — and at most one walk is in progress at a time. -/
theorem c1_state_walk_agreement (cfg : Config α) (inputs : List (Input α)) :
    (((runEngine cfg inputs).walkStatus = WalkStatus.walking ∨
        (runEngine cfg inputs).walkStatus = WalkStatus.returning) ↔
      ∃ w, (runEngine cfg inputs).currentWalk = some w) ∧
    (((runEngine cfg inputs).walkStatus = WalkStatus.at_home ∨
        (runEngine cfg inputs).walkStatus = WalkStatus.leaving) ↔
      (runEngine cfg inputs).currentWalk = none) ∧
    ∀ w1 w2, (runEngine cfg inputs).currentWalk = some w1 →
      (runEngine cfg inputs).currentWalk = some w2 → w1 = w2 := by
  obtain ⟨hagree, -, -, -⟩ := inv_runEngine cfg inputs
  have hstat : ∀ st : WalkStatus,
      (st = WalkStatus.at_home ∨ st = WalkStatus.leaving) ↔
        ¬(st = WalkStatus.walking ∨ st = WalkStatus.returning) := by
    intro st
    cases st <;> simp
  refine ⟨?_, ?_, ?_⟩
  · rw [hagree, Option.isSome_iff_exists]
  · rw [hstat, hagree, ← Option.not_isSome_iff_eq_none]
  · intro w1 w2 h1 h2
    rw [h1] at h2
    exact Option.some.inj h2

/-- C9: the manual walk-start entry point is rejected while a walk is already in
progress — on any reachable engine state holding an in-progress walk, `handleManualStart`
changes no engine state and creates no second walk. -/
theorem c9_manual_start_rejected (cfg : Config α) (inputs : List (Input α)) (now : Int)
    (h : (runEngine cfg inputs).currentWalk.isSome = true) :
    handleManualStart now (runEngine cfg inputs) = runEngine cfg inputs := by
  obtain ⟨-, hflag, -, -⟩ := inv_runEngine cfg inputs
  have hiw : (runEngine cfg inputs).isWalking = true := by rw [hflag, h]
  cases hcp : (runEngine cfg inputs).currentPosition with
  | none => simp [handleManualStart, hcp]
  | some p => simp [handleManualStart, hcp, startWalk, hiw]

/-- C9 witness: after the concrete confirmed walk start, a manual start attempt is a
no-op. -/
theorem c9_manual_start_rejected_witness :
    (runEngine cfgQ startRunQ).currentWalk.isSome = true ∧
      handleManualStart 9999 (runEngine cfgQ startRunQ) = runEngine cfgQ startRunQ :=
  ⟨by with_unfolding_all decide,
    c9_manual_start_rejected cfgQ startRunQ 9999 (by with_unfolding_all decide)⟩

/-- C5: with the haversine `getDistance` as the engine's distance function, after any
input sequence the in-progress walk's distance equals the sum of pairwise haversine
distances between consecutive points of its path, and the same equality holds for every
finalized walk handed off to the history. -/
theorem c5_distance_accumulation (homeZone : Zone Real) (customZones : List (Zone Real))
    (inputs : List (Input Real)) :
    (∀ w, (runEngine ⟨getDistance, homeZone, customZones⟩ inputs).currentWalk = some w →
      w.distance = pathDistance getDistance w.path) ∧
    ∀ w ∈ (runEngine ⟨getDistance, homeZone, customZones⟩ inputs).walks,
      w.distance = pathDistance getDistance w.path := by
  obtain ⟨-, -, hwalk, hhist⟩ := inv_runEngine ⟨getDistance, homeZone, customZones⟩ inputs
  exact ⟨fun w hw => (hwalk w hw).2.1, fun w hw => (hhist w hw).1⟩

/-- C2: start debounce — from an AtHome state with no walk in progress, two consecutive
samples beyond the home radius do not transition to `walking` and create no walk; a third
consecutive beyond-radius sample transitions to `walking` and emits `walkStarted` with the
timestamp and position of the first of the three samples, creating an in-progress walk
whose path contains exactly that single candidate start point. -/
theorem c2_start_debounce (cfg : Config α) (s : EngineState α)
    (hs : s.walkStatus = WalkStatus.at_home) (hn : s.currentWalk = none)
    (hw : s.isWalking = false)
    (lat1 lng1 lat2 lng2 lat3 lng3 : α) (t1 t2 t3 : Int)
    (h1 : cfg.dist lat1 lng1 cfg.homeZone.latitude cfg.homeZone.longitude > HOME_RADIUS_KM)
    (h2 : cfg.dist lat2 lng2 cfg.homeZone.latitude cfg.homeZone.longitude > HOME_RADIUS_KM)
    (h3 : cfg.dist lat3 lng3 cfg.homeZone.latitude cfg.homeZone.longitude > HOME_RADIUS_KM) :
    (ingestAll cfg [⟨lat1, lng1, t1⟩] s).walkStatus ≠ WalkStatus.walking ∧
    (ingestAll cfg [⟨lat1, lng1, t1⟩] s).currentWalk = none ∧
    (ingestAll cfg [⟨lat1, lng1, t1⟩, ⟨lat2, lng2, t2⟩] s).walkStatus ≠ WalkStatus.walking ∧
    (ingestAll cfg [⟨lat1, lng1, t1⟩, ⟨lat2, lng2, t2⟩] s).currentWalk = none ∧
    (processPositionUpdate cfg lat3 lng3 t3
        (ingestAll cfg [⟨lat1, lng1, t1⟩, ⟨lat2, lng2, t2⟩] s)).2 =
      some (WalkEvent.walkStarted t1 ⟨lat1, lng1⟩) ∧
    (processPositionUpdate cfg lat3 lng3 t3
        (ingestAll cfg [⟨lat1, lng1, t1⟩, ⟨lat2, lng2, t2⟩] s)).1.walkStatus =
      WalkStatus.walking ∧
    (processPositionUpdate cfg lat3 lng3 t3
        (ingestAll cfg [⟨lat1, lng1, t1⟩, ⟨lat2, lng2, t2⟩] s)).1.currentWalk =
      some ⟨"walk_" ++ toString t1, t1, none, 0, 0, [⟨lat1, lng1⟩], []⟩ := by
  obtain ⟨st, conf, iw, cw, cp, ws⟩ := s
  obtain rfl : st = WalkStatus.at_home := hs
  obtain rfl : cw = none := hn
  obtain rfl : iw = false := hw
  have e1 := ppu_at_home_beyond cfg lat1 lng1 t1 conf false none cp ws h1
  have e2 := ppu_leaving_beyond_noconfirm cfg lat2 lng2 t2 ⟨1, t1, some ⟨lat1, lng1⟩⟩
    false none (some ⟨lat1, lng1⟩) ws h2 (by norm_num [WALK_START_CONFIRMATION_COUNT])
  have e3 := ppu_leaving_confirm_start cfg lat3 lng3 t3 ⟨2, t1, some ⟨lat1, lng1⟩⟩
    none (some ⟨lat2, lng2⟩) ws ⟨lat1, lng1⟩ h3
    (by norm_num [WALK_START_CONFIRMATION_COUNT]) rfl
  simp only [ingestAll_cons, ingestAll_nil, e1, e2, e3]
  simp

/-- C2 witness: the start debounce on the concrete configuration, three samples 1 km from
home at times 1000, 2000 and 3000. -/
theorem c2_start_debounce_witness :
    cfgQ.dist 1 0 cfgQ.homeZone.latitude cfgQ.homeZone.longitude > HOME_RADIUS_KM ∧
    ((ingestAll cfgQ [⟨1, 0, 1000⟩] initialState).walkStatus ≠ WalkStatus.walking ∧
      (ingestAll cfgQ [⟨1, 0, 1000⟩] initialState).currentWalk = none ∧
      (ingestAll cfgQ [⟨1, 0, 1000⟩, ⟨1, 0, 2000⟩] initialState).walkStatus ≠
        WalkStatus.walking ∧
      (ingestAll cfgQ [⟨1, 0, 1000⟩, ⟨1, 0, 2000⟩] initialState).currentWalk = none ∧
      (processPositionUpdate cfgQ 1 0 3000
          (ingestAll cfgQ [⟨1, 0, 1000⟩, ⟨1, 0, 2000⟩] initialState)).2 =
        some (WalkEvent.walkStarted 1000 ⟨1, 0⟩) ∧
      (processPositionUpdate cfgQ 1 0 3000
          (ingestAll cfgQ [⟨1, 0, 1000⟩, ⟨1, 0, 2000⟩] initialState)).1.walkStatus =
        WalkStatus.walking ∧
      (processPositionUpdate cfgQ 1 0 3000
          (ingestAll cfgQ [⟨1, 0, 1000⟩, ⟨1, 0, 2000⟩] initialState)).1.currentWalk =
        some ⟨"walk_" ++ toString (1000 : Int), 1000, none, 0, 0, [⟨1, 0⟩], []⟩) :=
  ⟨by with_unfolding_all decide,
    c2_start_debounce cfgQ initialState rfl rfl rfl 1 0 1 0 1 0 1000 2000 3000
      (by with_unfolding_all decide) (by with_unfolding_all decide)
      (by with_unfolding_all decide)⟩

/-- C3: end debounce — from a `walking` state with in-progress walk `w`, one sample within
the home radius moves the state to `returning`, and a second consecutive within-radius
sample finalizes the walk and emits `walkCompleted`; the completed walk's `endTime` is the
timestamp of the first sample of the return-confirmation sequence (not the confirming
sample's), its `durationSeconds` is `floor((endTime - startTime)/1000)`, and the engine
drops its reference to the walk and returns to `at_home`. -/
theorem c3_end_debounce (cfg : Config α) (s : EngineState α) (w : Walk α)
    (hs : s.walkStatus = WalkStatus.walking) (hw : s.currentWalk = some w)
    (lat4 lng4 lat5 lng5 : α) (t4 t5 : Int)
    (h4 : cfg.dist lat4 lng4 cfg.homeZone.latitude cfg.homeZone.longitude ≤ HOME_RADIUS_KM)
    (h5 : cfg.dist lat5 lng5 cfg.homeZone.latitude cfg.homeZone.longitude ≤ HOME_RADIUS_KM) :
    (processPositionUpdate cfg lat4 lng4 t4 s).1.walkStatus = WalkStatus.returning ∧
    (processPositionUpdate cfg lat4 lng4 t4 s).2 = none ∧
    (processPositionUpdate cfg lat5 lng5 t5
        (processPositionUpdate cfg lat4 lng4 t4 s).1).2 =
      some (WalkEvent.walkCompleted (finalizeWalk (walkingUpdate cfg lat4 lng4 w) t4)) ∧
    (finalizeWalk (walkingUpdate cfg lat4 lng4 w) t4).endTime = some t4 ∧
    (finalizeWalk (walkingUpdate cfg lat4 lng4 w) t4).startTime = w.startTime ∧
    (finalizeWalk (walkingUpdate cfg lat4 lng4 w) t4).duration =
      Int.fdiv (t4 - w.startTime) 1000 ∧
    (processPositionUpdate cfg lat5 lng5 t5
        (processPositionUpdate cfg lat4 lng4 t4 s).1).1.walkStatus = WalkStatus.at_home ∧
    (processPositionUpdate cfg lat5 lng5 t5
        (processPositionUpdate cfg lat4 lng4 t4 s).1).1.currentWalk = none ∧
    (processPositionUpdate cfg lat5 lng5 t5
        (processPositionUpdate cfg lat4 lng4 t4 s).1).1.isWalking = false ∧
    (processPositionUpdate cfg lat5 lng5 t5
        (processPositionUpdate cfg lat4 lng4 t4 s).1).1.walks =
      s.walks ++ [finalizeWalk (walkingUpdate cfg lat4 lng4 w) t4] := by
  obtain ⟨st, conf, iw, cw, cp, ws⟩ := s
  obtain rfl : st = WalkStatus.walking := hs
  obtain rfl : cw = some w := hw
  have e4 := ppu_walking_within cfg lat4 lng4 t4 conf iw w cp ws h4
  have e5 := ppu_returning_confirm cfg lat5 lng5 t5 ⟨1, t4, none⟩ iw
    (walkingUpdate cfg lat4 lng4 w) (some ⟨lat4, lng4⟩) ws h5
    (by norm_num [WALK_END_CONFIRMATION_COUNT])
  simp only [e4, e5]
  simp

/-- C3 witness: the end debounce on the concrete walking state, two home samples at times
4000 and 5000. -/
theorem c3_end_debounce_witness :
    cfgQ.dist 0 0 cfgQ.homeZone.latitude cfgQ.homeZone.longitude ≤ HOME_RADIUS_KM ∧
    ((processPositionUpdate cfgQ 0 0 4000 sWalkQ).1.walkStatus = WalkStatus.returning ∧
      (processPositionUpdate cfgQ 0 0 4000 sWalkQ).2 = none ∧
      (processPositionUpdate cfgQ 0 0 5000
          (processPositionUpdate cfgQ 0 0 4000 sWalkQ).1).2 =
        some (WalkEvent.walkCompleted (finalizeWalk (walkingUpdate cfgQ 0 0 wQ) 4000)) ∧
      (finalizeWalk (walkingUpdate cfgQ 0 0 wQ) 4000).endTime = some 4000 ∧
      (finalizeWalk (walkingUpdate cfgQ 0 0 wQ) 4000).startTime = wQ.startTime ∧
      (finalizeWalk (walkingUpdate cfgQ 0 0 wQ) 4000).duration =
        Int.fdiv (4000 - wQ.startTime) 1000 ∧
      (processPositionUpdate cfgQ 0 0 5000
          (processPositionUpdate cfgQ 0 0 4000 sWalkQ).1).1.walkStatus =
        WalkStatus.at_home ∧
      (processPositionUpdate cfgQ 0 0 5000
          (processPositionUpdate cfgQ 0 0 4000 sWalkQ).1).1.currentWalk = none ∧
      (processPositionUpdate cfgQ 0 0 5000
          (processPositionUpdate cfgQ 0 0 4000 sWalkQ).1).1.isWalking = false ∧
      (processPositionUpdate cfgQ 0 0 5000
          (processPositionUpdate cfgQ 0 0 4000 sWalkQ).1).1.walks =
        sWalkQ.walks ++ [finalizeWalk (walkingUpdate cfgQ 0 0 wQ) 4000]) :=
  ⟨by with_unfolding_all decide,
    c3_end_debounce cfgQ sWalkQ wQ (by with_unfolding_all decide)
      (by with_unfolding_all decide) 0 0 0 0 4000 5000
      (by with_unfolding_all decide) (by with_unfolding_all decide)⟩

/-- C4: interruption — from a `returning` state, a sample outside the home radius reverts
the state to `walking` without finalizing or discarding the in-progress walk (same walk,
no event, history unchanged), and the next sample accumulates into that same walk: its
path gains the sample and its distance grows by the leg from the previous last path
point. -/
theorem c4_interruption (cfg : Config α) (s : EngineState α) (w : Walk α)
    (hs : s.walkStatus = WalkStatus.returning) (hw : s.currentWalk = some w)
    (lat1 lng1 lat2 lng2 : α) (t1 t2 : Int)
    (h1 : cfg.dist lat1 lng1 cfg.homeZone.latitude cfg.homeZone.longitude >
      HOME_RADIUS_KM) :
    (processPositionUpdate cfg lat1 lng1 t1 s).1.walkStatus = WalkStatus.walking ∧
    (processPositionUpdate cfg lat1 lng1 t1 s).1.currentWalk = some w ∧
    (processPositionUpdate cfg lat1 lng1 t1 s).2 = none ∧
    (processPositionUpdate cfg lat1 lng1 t1 s).1.walks = s.walks ∧
    (processPositionUpdate cfg lat2 lng2 t2
        (processPositionUpdate cfg lat1 lng1 t1 s).1).1.currentWalk =
      some (walkingUpdate cfg lat2 lng2 w) ∧
    (walkingUpdate cfg lat2 lng2 w).path = w.path ++ [⟨lat2, lng2⟩] ∧
    (walkingUpdate cfg lat2 lng2 w).distance =
      w.distance + cfg.dist (w.path.getLastD ⟨lat2, lng2⟩).lat
        (w.path.getLastD ⟨lat2, lng2⟩).lng lat2 lng2 := by
  obtain ⟨st, conf, iw, cw, cp, ws⟩ := s
  obtain rfl : st = WalkStatus.returning := hs
  obtain rfl : cw = some w := hw
  have e1 := ppu_returning_beyond cfg lat1 lng1 t1 conf iw (some w) cp ws (not_le.mpr h1)
  by_cases hd2 : cfg.dist lat2 lng2 cfg.homeZone.latitude cfg.homeZone.longitude ≤
      HOME_RADIUS_KM
  · have e2 := ppu_walking_within cfg lat2 lng2 t2 conf iw w (some ⟨lat1, lng1⟩) ws hd2
    simp only [e1, e2]
    simp
  · have e2 := ppu_walking_beyond cfg lat2 lng2 t2 conf iw w (some ⟨lat1, lng1⟩) ws hd2
    simp only [e1, e2]
    simp

/-- C4 witness: the interruption on the concrete returning state, an away sample at time
5000 and a further sample at time 6000. -/
theorem c4_interruption_witness :
    cfgQ.dist 1 0 cfgQ.homeZone.latitude cfgQ.homeZone.longitude > HOME_RADIUS_KM ∧
    ((processPositionUpdate cfgQ 1 0 5000 sRetQ).1.walkStatus = WalkStatus.walking ∧
      (processPositionUpdate cfgQ 1 0 5000 sRetQ).1.currentWalk = some wRetQ ∧
      (processPositionUpdate cfgQ 1 0 5000 sRetQ).2 = none ∧
      (processPositionUpdate cfgQ 1 0 5000 sRetQ).1.walks = sRetQ.walks ∧
      (processPositionUpdate cfgQ 2 0 6000
          (processPositionUpdate cfgQ 1 0 5000 sRetQ).1).1.currentWalk =
        some (walkingUpdate cfgQ 2 0 wRetQ) ∧
      (walkingUpdate cfgQ 2 0 wRetQ).path = wRetQ.path ++ [⟨2, 0⟩] ∧
      (walkingUpdate cfgQ 2 0 wRetQ).distance =
        wRetQ.distance + cfgQ.dist (wRetQ.path.getLastD ⟨2, 0⟩).lat
          (wRetQ.path.getLastD ⟨2, 0⟩).lng 2 0) :=
  ⟨by with_unfolding_all decide,
    c4_interruption cfgQ sRetQ wRetQ (by with_unfolding_all decide)
      (by with_unfolding_all decide) 1 0 2 0 5000 6000 (by with_unfolding_all decide)⟩

/-- C6 counterexample: in the concrete configuration, AtHome moves to Leaving on an
outside sample and back to AtHome on an inside sample, but the confirmation counter is
not cleared — it still holds 1. -/
theorem c6_revert_counterexample :
    (ingestAll cfgQ [⟨1, 0, 100⟩, ⟨0, 0, 200⟩] initialState).walkStatus =
        WalkStatus.at_home ∧
      ¬(ingestAll cfgQ [⟨1, 0, 100⟩, ⟨0, 0, 200⟩] initialState).confirmation.points = 0 ∧
      (ingestAll cfgQ [⟨1, 0, 100⟩, ⟨0, 0, 200⟩] initialState).confirmation.points = 1 := by
  with_unfolding_all decide

/-- C6 (amended): from an AtHome state with no walk, an outside-radius sample followed by
a sample back inside returns the state to `at_home`; the confirmation counter is left
stale (still holding 1) rather than cleared, but it is re-initialized when `leaving` is
next entered, so a subsequent excursion still requires a fresh run of three consecutive
outside-radius samples — two further outside samples do not start a walk, and the third
starts one with `walkStarted` carrying the first sample of the new run. -/
theorem c6_revert_amended (cfg : Config α) (s : EngineState α)
    (hs : s.walkStatus = WalkStatus.at_home) (hn : s.currentWalk = none)
    (hw : s.isWalking = false)
    (a1 b1 a2 b2 a3 b3 a4 b4 a5 b5 : α) (t1 t2 t3 t4 t5 : Int)
    (h1 : cfg.dist a1 b1 cfg.homeZone.latitude cfg.homeZone.longitude > HOME_RADIUS_KM)
    (h2 : ¬ cfg.dist a2 b2 cfg.homeZone.latitude cfg.homeZone.longitude > HOME_RADIUS_KM)
    (h3 : cfg.dist a3 b3 cfg.homeZone.latitude cfg.homeZone.longitude > HOME_RADIUS_KM)
    (h4 : cfg.dist a4 b4 cfg.homeZone.latitude cfg.homeZone.longitude > HOME_RADIUS_KM)
    (h5 : cfg.dist a5 b5 cfg.homeZone.latitude cfg.homeZone.longitude > HOME_RADIUS_KM) :
    (ingestAll cfg [⟨a1, b1, t1⟩, ⟨a2, b2, t2⟩] s).walkStatus = WalkStatus.at_home ∧
    (ingestAll cfg [⟨a1, b1, t1⟩, ⟨a2, b2, t2⟩] s).confirmation.points = 1 ∧
    (ingestAll cfg [⟨a1, b1, t1⟩, ⟨a2, b2, t2⟩] s).currentWalk = none ∧
    (ingestAll cfg [⟨a1, b1, t1⟩, ⟨a2, b2, t2⟩, ⟨a3, b3, t3⟩, ⟨a4, b4, t4⟩] s).walkStatus ≠
      WalkStatus.walking ∧
    (ingestAll cfg
        [⟨a1, b1, t1⟩, ⟨a2, b2, t2⟩, ⟨a3, b3, t3⟩, ⟨a4, b4, t4⟩] s).currentWalk = none ∧
    (processPositionUpdate cfg a5 b5 t5
        (ingestAll cfg [⟨a1, b1, t1⟩, ⟨a2, b2, t2⟩, ⟨a3, b3, t3⟩, ⟨a4, b4, t4⟩] s)).2 =
      some (WalkEvent.walkStarted t3 ⟨a3, b3⟩) ∧
    (processPositionUpdate cfg a5 b5 t5
        (ingestAll cfg
          [⟨a1, b1, t1⟩, ⟨a2, b2, t2⟩, ⟨a3, b3, t3⟩, ⟨a4, b4, t4⟩] s)).1.walkStatus =
      WalkStatus.walking := by
  obtain ⟨st, conf, iw, cw, cp, ws⟩ := s
  obtain rfl : st = WalkStatus.at_home := hs
  obtain rfl : cw = none := hn
  obtain rfl : iw = false := hw
  have e1 := ppu_at_home_beyond cfg a1 b1 t1 conf false none cp ws h1
  have e2 := ppu_leaving_within cfg a2 b2 t2 ⟨1, t1, some ⟨a1, b1⟩⟩ false none
    (some ⟨a1, b1⟩) ws h2
  have e3 := ppu_at_home_beyond cfg a3 b3 t3 ⟨1, t1, some ⟨a1, b1⟩⟩ false none
    (some ⟨a2, b2⟩) ws h3
  have e4 := ppu_leaving_beyond_noconfirm cfg a4 b4 t4 ⟨1, t3, some ⟨a3, b3⟩⟩ false none
    (some ⟨a3, b3⟩) ws h4 (by norm_num [WALK_START_CONFIRMATION_COUNT])
  have e5 := ppu_leaving_confirm_start cfg a5 b5 t5 ⟨2, t3, some ⟨a3, b3⟩⟩ none
    (some ⟨a4, b4⟩) ws ⟨a3, b3⟩ h5 (by norm_num [WALK_START_CONFIRMATION_COUNT]) rfl
  simp only [ingestAll_cons, ingestAll_nil, e1, e2, e3, e4, e5]
  simp

/-- C6 amended-claim witness: the revert-and-fresh-run behaviour on the concrete
configuration. -/
theorem c6_revert_amended_witness :
    cfgQ.dist 1 0 cfgQ.homeZone.latitude cfgQ.homeZone.longitude > HOME_RADIUS_KM ∧
    ((ingestAll cfgQ [⟨1, 0, 100⟩, ⟨0, 0, 200⟩] initialState).walkStatus =
        WalkStatus.at_home ∧
      (ingestAll cfgQ [⟨1, 0, 100⟩, ⟨0, 0, 200⟩] initialState).confirmation.points = 1 ∧
      (ingestAll cfgQ [⟨1, 0, 100⟩, ⟨0, 0, 200⟩] initialState).currentWalk = none ∧
      (ingestAll cfgQ
          [⟨1, 0, 100⟩, ⟨0, 0, 200⟩, ⟨1, 0, 300⟩, ⟨1, 0, 400⟩] initialState).walkStatus ≠
        WalkStatus.walking ∧
      (ingestAll cfgQ
          [⟨1, 0, 100⟩, ⟨0, 0, 200⟩, ⟨1, 0, 300⟩, ⟨1, 0, 400⟩] initialState).currentWalk =
        none ∧
      (processPositionUpdate cfgQ 1 0 500
          (ingestAll cfgQ
            [⟨1, 0, 100⟩, ⟨0, 0, 200⟩, ⟨1, 0, 300⟩, ⟨1, 0, 400⟩] initialState)).2 =
        some (WalkEvent.walkStarted 300 ⟨1, 0⟩) ∧
      (processPositionUpdate cfgQ 1 0 500
          (ingestAll cfgQ
            [⟨1, 0, 100⟩, ⟨0, 0, 200⟩, ⟨1, 0, 300⟩,
              ⟨1, 0, 400⟩] initialState)).1.walkStatus =
        WalkStatus.walking) :=
  ⟨by with_unfolding_all decide,
    c6_revert_amended cfgQ initialState rfl rfl rfl 1 0 0 0 1 0 1 0 1 0 100 200 300 400 500
      (by with_unfolding_all decide) (by with_unfolding_all decide)
      (by with_unfolding_all decide) (by with_unfolding_all decide)
      (by with_unfolding_all decide)⟩

/-- Auxiliary for C8: while `walking` and fed beyond-radius samples, the walk stays in
progress, duplicate-freedom of its visited-zone list is preserved, membership in the list
is monotone, and any configured zone whose radius contains one of the samples ends up in
the list. -/
theorem zones_walking_run (cfg : Config α) (z : Zone α) :
    ∀ (L : List (Sample α)) (s : EngineState α) (w : Walk α),
      s.walkStatus = WalkStatus.walking → s.currentWalk = some w →
      (∀ p ∈ L, cfg.dist p.lat p.lng cfg.homeZone.latitude cfg.homeZone.longitude >
        HOME_RADIUS_KM) →
      ∃ w', (ingestAll cfg L s).walkStatus = WalkStatus.walking ∧
        (ingestAll cfg L s).currentWalk = some w' ∧
        (w.zonesVisited.Nodup → w'.zonesVisited.Nodup) ∧
        (z.name ∈ w.zonesVisited → z.name ∈ w'.zonesVisited) ∧
        ((z ∈ cfg.customZones ∧
            ∃ p ∈ L, cfg.dist p.lat p.lng z.latitude z.longitude ≤ z.radius) →
          z.name ∈ w'.zonesVisited)
  | [], s, w, hs, hw, _ =>
    ⟨w, hs, hw, id, id, by
      rintro ⟨-, p, hp, -⟩
      exact absurd hp (List.not_mem_nil p)⟩
  | p :: L, s, w, hs, hw, hout => by
    obtain ⟨st, conf, iw, cw, cp, ws⟩ := s
    obtain rfl : st = WalkStatus.walking := hs
    obtain rfl : cw = some w := hw
    have hd : ¬ cfg.dist p.lat p.lng cfg.homeZone.latitude cfg.homeZone.longitude ≤
        HOME_RADIUS_KM := not_le.mpr (hout p (List.mem_cons_self p L))
    have e := ppu_walking_beyond cfg p.lat p.lng p.now conf iw w cp ws hd
    simp only [ingestAll_cons, e]
    obtain ⟨w', h1, h2, h3, h4, h5⟩ := zones_walking_run cfg z L
      ⟨WalkStatus.walking, conf, iw, some (walkingUpdate cfg p.lat p.lng w),
        some ⟨p.lat, p.lng⟩, ws⟩
      (walkingUpdate cfg p.lat p.lng w) rfl rfl
      (fun q hq => hout q (List.mem_cons_of_mem p hq))
    refine ⟨w', h1, h2, ?_, ?_, ?_⟩
    · intro _
      apply h3
      rw [walkingUpdate_zonesVisited]
      exact nodup_setUnion _ _
    · intro hm
      apply h4
      rw [walkingUpdate_zonesVisited, mem_setUnion]
      exact Or.inl hm
    · rintro ⟨hz, q, hq, hdq⟩
      rcases List.mem_cons.mp hq with rfl | hq'
      · apply h4
        rw [walkingUpdate_zonesVisited, mem_setUnion]
        right
        rw [List.mem_map]
        exact ⟨z, List.mem_filter.mpr ⟨hz, decide_eq_true hdq⟩, rfl⟩
      · exact h5 ⟨hz, q, hq', hdq⟩

/-- C8: zone visitation — for any samples ingested while `walking` (all beyond the home
radius, so the state stays `walking`), a configured zone's name appears in the in-progress
walk's `zonesVisited` at most once, and exactly once as soon as at least one of the samples
falls within the zone's radius. -/
theorem c8_zone_visitation (cfg : Config α) (z : Zone α) (s : EngineState α) (w : Walk α)
    (hs : s.walkStatus = WalkStatus.walking) (hw : s.currentWalk = some w)
    (hnd : w.zonesVisited.Nodup) (L : List (Sample α))
    (hout : ∀ p ∈ L, cfg.dist p.lat p.lng cfg.homeZone.latitude cfg.homeZone.longitude >
      HOME_RADIUS_KM) :
    ∃ w', (ingestAll cfg L s).currentWalk = some w' ∧
      w'.zonesVisited.count z.name ≤ 1 ∧
      ((z ∈ cfg.customZones ∧
          ∃ p ∈ L, cfg.dist p.lat p.lng z.latitude z.longitude ≤ z.radius) →
        w'.zonesVisited.count z.name = 1) := by
  obtain ⟨w', -, h2, h3, -, h5⟩ := zones_walking_run cfg z L s w hs hw hout
  have hnd' := h3 hnd
  exact ⟨w', h2, List.nodup_iff_count_le_one.mp hnd' z.name,
    fun hc => List.count_eq_one_of_mem hnd' (h5 hc)⟩

/-- C8 witness: in the concrete walking state, one sample at the Park zone's centre puts
"Park" in the visited list exactly once. -/
theorem c8_zone_visitation_witness :
    parkZoneQ ∈ cfgQ.customZones ∧
    (∃ w', (ingestAll cfgQ [⟨1, 1, 4000⟩] sWalkQ).currentWalk = some w' ∧
      w'.zonesVisited.count parkZoneQ.name ≤ 1 ∧
      ((parkZoneQ ∈ cfgQ.customZones ∧
          ∃ p ∈ [(⟨1, 1, 4000⟩ : Sample Rat)],
            cfgQ.dist p.lat p.lng parkZoneQ.latitude parkZoneQ.longitude ≤
              parkZoneQ.radius) →
        w'.zonesVisited.count parkZoneQ.name = 1)) :=
  ⟨by with_unfolding_all decide,
    c8_zone_visitation cfgQ parkZoneQ sWalkQ wQ (by with_unfolding_all decide)
      (by with_unfolding_all decide) (by with_unfolding_all decide) [⟨1, 1, 4000⟩]
      (by with_unfolding_all decide)⟩

theorem stepColl_fst (cfg : Config α) (p : EngineState α × List (Coord α)) (i : Input α) :
    (stepColl cfg p i).1 = step cfg p.1 i := rfl

theorem runColl_fst_aux (cfg : Config α) :
    ∀ (L : List (Input α)) (p : EngineState α × List (Coord α)),
      (L.foldl (stepColl cfg) p).1 = L.foldl (step cfg) p.1
  | [], _ => rfl
  | i :: L, p => by
    rw [List.foldl_cons, List.foldl_cons, runColl_fst_aux cfg L, stepColl_fst]

/-- The instrumented run tracks the plain engine run. -/
theorem runColl_fst (cfg : Config α) (L : List (Input α)) :
    (runColl cfg L).1 = runEngine cfg L :=
  runColl_fst_aux cfg L (initialState, [])

/-- One instrumented step preserves "the in-progress walk's path is the collector". -/
theorem stepColl_preserves (cfg : Config α) (s : EngineState α) (coll : List (Coord α))
    (i : Input α) (hInv : Inv cfg s)
    (hcoll : ∀ w, s.currentWalk = some w → w.path = coll) :
    ∀ w, (stepColl cfg (s, coll) i).1.currentWalk = some w →
      w.path = (stepColl cfg (s, coll) i).2 := by
  obtain ⟨st, conf, iw, cw, cp, ws⟩ := s
  obtain ⟨hagree, hflag, hwalk, hhist⟩ := hInv
  cases i with
  | manualStart now =>
    cases cp with
    | none =>
      cases cw with
      | none => simp [stepColl, step, handleManualStart]
      | some w0 =>
        simp only [stepColl, step, handleManualStart]
        simp only [Option.isNone_some, Bool.false_eq_true, false_and, if_false]
        intro w hw
        obtain rfl := Option.some.inj hw
        exact hcoll w0 rfl
    | some p =>
      cases iw with
      | true =>
        cases cw with
        | none => simp at hflag
        | some w0 =>
          have e : handleManualStart now
              (⟨st, conf, true, some w0, some p, ws⟩ : EngineState α) =
              ⟨st, conf, true, some w0, some p, ws⟩ := rfl
          simp only [stepColl, step, e]
          simp only [Option.isNone_some, Bool.false_eq_true, false_and, if_false]
          intro w hw
          obtain rfl := Option.some.inj hw
          exact hcoll w0 rfl
      | false =>
        cases cw with
        | some w0 => simp at hflag
        | none =>
          have e : handleManualStart now
              (⟨st, conf, false, none, some p, ws⟩ : EngineState α) =
              ⟨WalkStatus.walking, conf, true,
                some ⟨"walk_" ++ toString now, now, none, 0, 0, [p], []⟩,
                some p, ws⟩ := rfl
          simp only [stepColl, step, e]
          simp only [Option.isNone_none, Option.isSome_some, and_self, if_true]
          intro w hw
          obtain rfl := Option.some.inj hw
          simp
  | sample lat lng now =>
    cases st with
    | at_home =>
      cases cw with
      | some w0 => simp at hagree
      | none =>
        simp at hflag
        subst hflag
        by_cases hd : cfg.dist lat lng cfg.homeZone.latitude cfg.homeZone.longitude >
            HOME_RADIUS_KM
        · have e := ppu_at_home_beyond cfg lat lng now conf false none cp ws hd
          simp only [stepColl, step, e]
          simp
        · have e := ppu_at_home_within cfg lat lng now conf false none cp ws hd
          simp only [stepColl, step, e]
          simp
    | leaving =>
      cases cw with
      | some w0 => simp at hagree
      | none =>
        simp at hflag
        subst hflag
        by_cases hd : cfg.dist lat lng cfg.homeZone.latitude cfg.homeZone.longitude >
            HOME_RADIUS_KM
        · by_cases hc : conf.points + 1 ≥ WALK_START_CONFIRMATION_COUNT
          · cases hp : conf.startPosition with
            | some p =>
              have e := ppu_leaving_confirm_start cfg lat lng now conf none cp ws p hd hc hp
              simp only [stepColl, step, e]
              simp only [Option.isNone_none, Option.isSome_some, and_self, if_true, hp]
              intro w hw
              obtain rfl := Option.some.inj hw
              simp
            | none =>
              have e := ppu_leaving_confirm_nopos cfg lat lng now conf false none cp ws
                hd hc hp
              simp only [stepColl, step, e]
              simp
          · have e := ppu_leaving_beyond_noconfirm cfg lat lng now conf false none cp ws
              hd hc
            simp only [stepColl, step, e]
            simp
        · have e := ppu_leaving_within cfg lat lng now conf false none cp ws hd
          simp only [stepColl, step, e]
          simp
    | walking =>
      cases cw with
      | none => simp at hagree
      | some w0 =>
        simp at hflag
        subst hflag
        by_cases hd : cfg.dist lat lng cfg.homeZone.latitude cfg.homeZone.longitude ≤
            HOME_RADIUS_KM
        · have e := ppu_walking_within cfg lat lng now conf true w0 cp ws hd
          simp only [stepColl, step, e]
          simp only [Option.isNone_some, Bool.false_eq_true, false_and, if_false,
            Option.isSome_some, and_true]
          intro w hw
          obtain rfl := Option.some.inj hw
          simp [hcoll w0 rfl]
        · have e := ppu_walking_beyond cfg lat lng now conf true w0 cp ws hd
          simp only [stepColl, step, e]
          simp only [Option.isNone_some, Bool.false_eq_true, false_and, if_false,
            Option.isSome_some, and_true]
          intro w hw
          obtain rfl := Option.some.inj hw
          simp [hcoll w0 rfl]
    | returning =>
      cases cw with
      | none => simp at hagree
      | some w0 =>
        simp at hflag
        subst hflag
        by_cases hd : cfg.dist lat lng cfg.homeZone.latitude cfg.homeZone.longitude ≤
            HOME_RADIUS_KM
        · by_cases hc : conf.points + 1 ≥ WALK_END_CONFIRMATION_COUNT
          · have e := ppu_returning_confirm cfg lat lng now conf true w0 cp ws hd hc
            simp only [stepColl, step, e]
            simp
          · have e := ppu_returning_noconfirm cfg lat lng now conf true (some w0) cp ws
              hd hc
            simp only [stepColl, step, e]
            simp only [Option.isNone_some, Bool.false_eq_true, false_and, if_false]
            intro w hw
            obtain rfl := Option.some.inj hw
            exact hcoll w0 rfl
        · have e := ppu_returning_beyond cfg lat lng now conf true (some w0) cp ws hd
          simp only [stepColl, step, e]
          simp only [Option.isNone_some, Bool.false_eq_true, false_and, if_false]
          intro w hw
          obtain rfl := Option.some.inj hw
          exact hcoll w0 rfl

theorem c10_aux (cfg : Config α) :
    ∀ (L : List (Input α)) (s : EngineState α) (coll : List (Coord α)),
      Inv cfg s → (∀ w, s.currentWalk = some w → w.path = coll) →
      ∀ w, (L.foldl (stepColl cfg) (s, coll)).1.currentWalk = some w →
        w.path = (L.foldl (stepColl cfg) (s, coll)).2
  | [], _, _, _, hcoll => hcoll
  | i :: L, s, coll, hInv, hcoll => by
    rw [List.foldl_cons]
    have h1 : Inv cfg (stepColl cfg (s, coll) i).1 := by
      rw [stepColl_fst]
      exact inv_step cfg s i hInv
    have h2 := stepColl_preserves cfg s coll i hInv hcoll
    have h3 := c10_aux cfg L (stepColl cfg (s, coll) i).1 (stepColl cfg (s, coll) i).2 h1 h2
    rwa [Prod.mk.eta] at h3

/-- C10: the in-progress walk's path is exactly the recorded candidate start position
followed by precisely the samples processed in the `walking` state, in chronological
order (the collector of the instrumented run), and its distance is the sum of the legs of
that path — so samples processed in `leaving` or `returning` are never appended and never
add distance. -/
theorem c10_path_provenance (cfg : Config α) (inputs : List (Input α)) (w : Walk α)
    (hw : (runColl cfg inputs).1.currentWalk = some w) :
    w.path = (runColl cfg inputs).2 ∧ w.distance = pathDistance cfg.dist w.path := by
  constructor
  · exact c10_aux cfg inputs initialState [] (inv_initialState cfg)
      (fun w' hw' => by simp [initialState] at hw') w hw
  · have h := inv_runEngine cfg inputs
    rw [runColl_fst] at hw
    exact (h.2.2.1 w hw).2.1

/-- C10 witness: on the concrete run (three start samples, then one walking sample), the
walk's path is the candidate start point followed by the one walking sample, matching the
collector. -/
theorem c10_path_provenance_witness :
    (runColl cfgQ walkRunQ).1.currentWalk = some w10Q ∧
      (w10Q.path = (runColl cfgQ walkRunQ).2 ∧
        w10Q.distance = pathDistance cfgQ.dist w10Q.path) :=
  ⟨by with_unfolding_all decide,
    c10_path_provenance cfgQ walkRunQ w10Q (by with_unfolding_all decide)⟩

theorem atan2_zero_one : atan2 0 1 = 0 := by
  unfold atan2
  rw [if_pos one_pos]
  simp [Real.arctan_zero]

/-- The haversine distance from a point to itself is zero. -/
theorem getDistance_self (lat lon : Real) : getDistance lat lon lat lon = 0 := by
  simp [getDistance, Real.sin_zero, Real.sqrt_zero, Real.sqrt_one, atan2_zero_one]

/-- The haversine distance is symmetric in its two coordinates. -/
theorem getDistance_comm (lat1 lon1 lat2 lon2 : Real) :
    getDistance lat1 lon1 lat2 lon2 = getDistance lat2 lon2 lat1 lon1 := by
  have ha :
      Real.sin ((lat2 - lat1) * (Real.pi / 180) / 2) *
          Real.sin ((lat2 - lat1) * (Real.pi / 180) / 2) +
        Real.cos (lat1 * (Real.pi / 180)) * Real.cos (lat2 * (Real.pi / 180)) *
          (Real.sin ((lon2 - lon1) * (Real.pi / 180) / 2) *
            Real.sin ((lon2 - lon1) * (Real.pi / 180) / 2)) =
      Real.sin ((lat1 - lat2) * (Real.pi / 180) / 2) *
          Real.sin ((lat1 - lat2) * (Real.pi / 180) / 2) +
        Real.cos (lat2 * (Real.pi / 180)) * Real.cos (lat1 * (Real.pi / 180)) *
          (Real.sin ((lon1 - lon2) * (Real.pi / 180) / 2) *
            Real.sin ((lon1 - lon2) * (Real.pi / 180) / 2)) := by
    rw [show (lat1 - lat2) * (Real.pi / 180) / 2 = -((lat2 - lat1) * (Real.pi / 180) / 2)
        by ring,
      show (lon1 - lon2) * (Real.pi / 180) / 2 = -((lon2 - lon1) * (Real.pi / 180) / 2)
        by ring,
      Real.sin_neg, Real.sin_neg]
    ring
  simp only [getDistance]
  rw [ha]

/-- C7 (amended): `getDistance` is symmetric — `distance(a,b) = distance(b,a)` for all
coordinate pairs — and `distance(a,a) = 0` for every coordinate (so equal coordinates give
distance zero); the zero-implies-equal direction of the original claim is false, see the
counterexample at the pole. -/
theorem c7_geodesy_amended :
    (∀ lat1 lon1 lat2 lon2 : Real,
      getDistance lat1 lon1 lat2 lon2 = getDistance lat2 lon2 lat1 lon1) ∧
    ∀ lat lon : Real, getDistance lat lon lat lon = 0 :=
  ⟨getDistance_comm, getDistance_self⟩

/-- C7 counterexample: the two distinct coordinates (90, 0) and (90, 10) — both at
latitude 90, within valid ranges — have `getDistance` zero, so "distance is zero exactly
when the coordinates are equal" fails. -/
theorem c7_zero_iff_counterexample :
    getDistance 90 0 90 10 = 0 ∧
      ¬(((90 : Real), (0 : Real)) = ((90 : Real), (10 : Real))) := by
  constructor
  · have e0 : ((90 : Real) - 90) * (Real.pi / 180) / 2 = 0 := by ring
    have e90 : (90 : Real) * (Real.pi / 180) = Real.pi / 2 := by ring
    simp [getDistance, e0, e90, Real.sin_zero, Real.cos_pi_div_two, Real.sqrt_zero,
      Real.sqrt_one, atan2_zero_one]
  · intro h
    have h2 : (0 : Real) = 10 := congrArg Prod.snd h
    norm_num at h2

end DogWalk
